import Mathlib

/-!
# webStorage

A shallow embedding of `jquery.webstorage.js`, the failsafe front end to the
browser's `localStorage`, and the properties of its four public operations
`set`, `get`, `remove` and `clear`.

Conventions of the embedding.

* JavaScript values are the inductive type `Value`; numbers are exact
  rationals together with `NaN` (floating point rounding is not modelled).
* The two capability flags, the codec `JSON`, the host's coercions and the
  property names every object inherits are gathered in `Env`: they belong to
  the host, not to the script, and are fixed when the script is loaded.
* The mutable state is `Store`: the contents of `localStorage` and the
  script's private object `temporal`.  Every operation returns its outcome
  together with the store it leaves behind, so that the store after a raised
  error is observable too.
* `new Date().getTime()` is the argument `clock` (milliseconds).
* The diagnostic output of `notice` goes to the console only and is left out.
-/

namespace WebStorage

/-! ## Values -/

/-- JavaScript numbers: exact rationals and `NaN`. -/
inductive Number
  | val (q : ℚ)
  | nan

/-- Multiplication of JavaScript numbers; `NaN` is absorbing. -/
def Number.mul : Number → Number → Number
  | .val a, .val b => .val (a * b)
  | _, _ => .nan

/-- Subtraction of JavaScript numbers; `NaN` is absorbing. -/
def Number.sub : Number → Number → Number
  | .val a, .val b => .val (a - b)
  | _, _ => .nan

/-- The comparison `a < b` on numbers: false as soon as one side is `NaN`. -/
def Number.lt : Number → Number → Bool
  | .val a, .val b => decide (a < b)
  | _, _ => false

/-- JavaScript values.  An object is the list of its own properties in
insertion order (the first binding of a name is the one that is read);
`func` is any callable value. -/
inductive Value
  | undefined
  | null
  | bool (b : Bool)
  | num (n : Number)
  | str (s : String)
  | obj (fields : List (String × Value))
  | func

/-- The strings `typeof` can produce (`xml` is the E4X tag the script also tests for). -/
inductive TypeTag
  | undefined
  | object
  | boolean
  | number
  | string
  | function
  | xml
deriving DecidableEq

/-- The operator `typeof`.  Note that `typeof null` is `'object'`. -/
def typeOf : Value → TypeTag
  | .undefined => .undefined
  | .null => .object
  | .bool _ => .boolean
  | .num _ => .number
  | .str _ => .string
  | .obj _ => .object
  | .func => .function

/-- The property `length` of a string: its number of UTF-16 code units. -/
def jsLength (s : String) : Nat :=
  (s.toList.map (fun c => if c.toNat < 65536 then 1 else 2)).sum

/-- The errors an operation can raise: the five strings the script throws,
and the three errors the host raises on the script's behalf. -/
inductive Err
  /-- `'Key must be of valid type "String".'` -/
  | invalidKeyType
  /-- `'Key length must be greater than 3 characters.'` -/
  | keyTooShort
  /-- `'Web storage can not store functions.'` -/
  | unsupportedValueType
  /-- `'Stored object could not be parsed. Was this saved with webStorage?'` -/
  | corruptEntry
  /-- `'Stored object did not have a timestamp.'` -/
  | missingTimestamp
  /-- The host's `ReferenceError`: `JSON` is used where it is not defined. -/
  | referenceError
  /-- The host's `TypeError`: a property of `null` or `undefined` is read. -/
  | typeError
  /-- The host's `SyntaxError`: the unguarded `JSON.parse` of line 146 fails. -/
  | syntaxError
deriving DecidableEq

/-- Reading one of the properties `t`, `json`, `d` of a value: a `TypeError`
on `null` and `undefined`, the own property of an object, and `undefined` on
every other value (no primitive wrapper or function defines these names). -/
def Value.prop (v : Value) (name : String) : Except Err Value :=
  match v with
  | .undefined => .error .typeError
  | .null => .error .typeError
  | .obj fields => .ok ((fields.lookup name).getD .undefined)
  | _ => .ok .undefined

/-! ## The host -/

/-- The host environment as the script finds it when it is loaded.

* `hasStorage`: `typeof storage == 'object'` (lines 11-12 and 25-26);
* `hasJson`: `typeof JSON == 'object'` (lines 22-23);
* `stringify`, `parse`: `JSON.stringify` and `JSON.parse` (`none` is a
  `SyntaxError`); they are only there to be called when `hasJson` holds;
* `coerceNumber`, `coerceText`: the host's `ToNumber` and `ToString` on the
  values for which they are not spelled out below;
* `inherited`: the property names an empty object literal already answers to
  through its prototype (`toString`, `constructor`, ... on a real host): the
  value read under such a name is a function. -/
structure Env where
  hasStorage : Bool
  hasJson : Bool
  stringify : Value → String
  parse : String → Option Value
  coerceNumber : Value → Number
  coerceText : Value → String
  inherited : String → Bool

/-- The conversion `ToNumber`, as applied by `*` and `<`. -/
def toNumber (env : Env) : Value → Number
  | .undefined => .nan
  | .null => .val 0
  | .bool true => .val 1
  | .bool false => .val 0
  | .num n => n
  | v => env.coerceNumber v

/-- The conversion `ToString`, as applied by `JSON.parse` to its argument. -/
def toText (env : Env) : Value → String
  | .str s => s
  | v => env.coerceText v

/-! ## The state -/

/-- An entry of the in-memory mapping `temporal`: the object `{t, d}`.
(`set` adds the property `json` only under `hasStorage`, and writes to
`temporal` only without it, so an entry of `temporal` never carries `json`.) -/
structure Entry where
  t : Number
  d : Value

/-- The object `_storedItem` that `set` builds: `{t, d}`, with `json: true`
between them when the payload was serialized. -/
structure Item where
  t : Number
  json : Bool
  d : Value

/-- The item as a JavaScript object, properties in the order they were set. -/
def Item.toValue (i : Item) : Value :=
  .obj (("t", .num i.t) :: ((if i.json then [("json", .bool true)] else []) ++ [("d", i.d)]))

/-- The in-memory entry as a JavaScript object. -/
def Entry.toValue (e : Entry) : Value :=
  .obj [("t", .num e.t), ("d", e.d)]

/-- The mutable state: `localStorage` (a string-valued key-value store) and
the script's private object `temporal`. -/
structure Store where
  storage : String → Option String
  temporal : String → Option Entry

/-- Binding a key in a key-value mapping (`setItem`, property assignment). -/
def bind {α : Type} (m : String → Option α) (key : String) (a : α) : String → Option α :=
  fun k => if k = key then some a else m k

/-- Unbinding a key (`removeItem`, `delete`). -/
def unbind {α : Type} (m : String → Option α) (key : String) : String → Option α :=
  fun k => if k = key then none else m k

/-- The store with nothing in it. -/
def Store.empty : Store := ⟨fun _ => none, fun _ => none⟩

/-- The expression `temporal[key]`: the own property if there is one, else
what the prototype of the object literal answers. -/
def readTemporal (env : Env) (st : Store) (key : String) : Option Value :=
  match st.temporal key with
  | some e => some e.toValue
  | none => if env.inherited key then some .func else none

/-- What a call that has not raised returns: the facade (`this`) or a value. -/
inductive Returned
  | self
  | value (v : Value)

/-! ## The script -/

/-- Lines 31-44. -/
def checkKeyIsValid (key : Value) : Except Err String :=
  match key with
  | .str s => if jsLength s < 4 then .error .keyTooShort else .ok s
  | _ => .error .invalidKeyType

/-- Lines 58-61: the clock reading in seconds. -/
def getTimestamp (clock : Int) : Number :=
  .val ((clock : ℚ) / 1000)

/-- Lines 74-87 of `set`: the item built for `data`.  `.ok none` is the
`return false` of line 79, an error the `throw` of line 83. -/
def buildItem (env : Env) (clock : Int) (data : Value) : Except Err (Option Item) :=
  let dataType := typeOf data
  if (dataType = .object ∨ dataType = .xml) ∧ env.hasStorage = true then
    if env.hasJson = false then .ok none
    else .ok (some ⟨getTimestamp clock, true, .str (env.stringify data)⟩)
  else if dataType = .function then .error .unsupportedValueType
  else .ok (some ⟨getTimestamp clock, false, data⟩)

/-- Lines 70-96. -/
def set (env : Env) (clock : Int) (st : Store) (key data : Value) :
    Except Err Returned × Store :=
  match checkKeyIsValid key with
  | .error e => (.error e, st)
  | .ok k =>
    match buildItem env clock data with
    | .error e => (.error e, st)
    | .ok none => (.ok (.value (.bool false)), st)
    | .ok (some item) =>
      if env.hasStorage = true then
        if env.hasJson = true then
          (.ok .self, { st with storage := bind st.storage k (env.stringify item.toValue) })
        else (.error .referenceError, st)
      else (.ok .self, { st with temporal := bind st.temporal k ⟨item.t, item.d⟩ })

/-- Lines 134-148 of `get`: from the retrieved `_storedItem` to the result. -/
def readItem (env : Env) (clock : Int) (expiration : Number) (item : Value) :
    Except Err Value :=
  match item.prop "t" with
  | .error e => .error e
  | .ok .undefined => .error .missingTimestamp
  | .ok t =>
    if Number.lt (toNumber env t) (Number.sub (getTimestamp clock) expiration) = true then
      .ok (.bool false)
    else
      match item.prop "json", item.prop "d" with
      | .ok (.bool true), .ok d =>
        if env.hasJson = true then
          match env.parse (toText env d) with
          | some v => .ok v
          | none => .error .syntaxError
        else .ok d
      | _, .ok d => .ok d
      | _, .error e => .error e

/-- Lines 103-149. -/
def get (env : Env) (clock : Int) (st : Store) (key expiration : Value) :
    Except Err Value × Store :=
  match checkKeyIsValid key with
  | .error e => (.error e, st)
  | .ok k =>
    let expiration := Number.mul (toNumber env expiration) (.val 60)
    if env.hasStorage = true ∧ env.hasJson = true then
      match st.storage k with
      | none => (.ok (.bool false), st)
      | some raw =>
        match env.parse raw with
        | none => (.error .corruptEntry, st)
        | some item => (readItem env clock expiration item, st)
    else
      match readTemporal env st k with
      | some item => (readItem env clock expiration item, st)
      | none => (.ok (.bool false), st)

/-- Lines 156-167. -/
def remove (env : Env) (st : Store) (key : Value) : Except Err Returned × Store :=
  match checkKeyIsValid key with
  | .error e => (.error e, st)
  | .ok k =>
    if env.hasStorage = true then (.ok .self, { st with storage := unbind st.storage k })
    else if (readTemporal env st k).isSome then
      (.ok .self, { st with temporal := unbind st.temporal k })
    else (.ok .self, st)

/-- Lines 173-180. -/
def clear (env : Env) (st : Store) : Returned × Store :=
  if env.hasStorage = true then (.self, { st with storage := fun _ => none })
  else (.self, { st with temporal := fun _ => none })

/-! ## Vocabulary of the statements -/

/-- The codec's `parse` undoes its `stringify` on the value `x`. -/
def Env.RoundTrips (env : Env) (x : Value) : Prop :=
  env.parse (env.stringify x) = some x

/-- A clock reading in seconds: the number `getTimestamp` returns for it. -/
def seconds (clock : Int) : ℚ :=
  (clock : ℚ) / 1000

/-- The backend `get` reads holds under `key` a well-formed entry with
timestamp `t` and payload `payload`: in the persistent store a text that
parses to an item `{t, d}` whose `d` is the payload, or to an item
`{t, json: true, d}` whose `d` parses to the payload; in the in-memory
mapping the entry `{t, d}` itself. -/
def HoldsEntry (env : Env) (st : Store) (key : String) (t : ℚ) (payload : Value) : Prop :=
  if env.hasStorage = true ∧ env.hasJson = true then
    ∃ raw json d, st.storage key = some raw ∧
      env.parse raw = some (Item.toValue ⟨.val t, json, d⟩) ∧
      (if json = true then env.parse (toText env d) = some payload else d = payload)
  else st.temporal key = some ⟨.val t, payload⟩

/-- A call of one of the four public operations, with the clock reading at
which it is made where the operation reads the clock. -/
inductive Call
  | set (clock : Int) (key data : Value)
  | get (clock : Int) (key expiration : Value)
  | remove (key : Value)
  | clear

/-- The clock reading of a call (`0` for the calls that read no clock). -/
def Call.clock : Call → Int
  | .set clock _ _ => clock
  | .get clock _ _ => clock
  | .remove _ => 0
  | .clear => 0

/-- The store a call leaves behind, whatever its outcome. -/
def step (env : Env) (st : Store) : Call → Store
  | .set clock key data => (set env clock st key data).2
  | .get clock key expiration => (get env clock st key expiration).2
  | .remove key => (remove env st key).2
  | .clear => (clear env st).2

/-- The store a sequence of calls leaves behind. -/
def run (env : Env) (st : Store) (calls : List Call) : Store :=
  calls.foldl (step env) st

/-- Every entry of the store decodes and carries a non-negative timestamp:
a text of the persistent store parses to an item `{t, json?, d}`, an entry of
the in-memory mapping is `{t, d}`, and `t` is a number that is not negative. -/
def WellFormed (env : Env) (st : Store) : Prop :=
  (∀ k raw, st.storage k = some raw →
    ∃ item : Item, env.parse raw = some item.toValue ∧ ∃ q : ℚ, item.t = .val q ∧ 0 ≤ q) ∧
  (∀ k e, st.temporal k = some e → ∃ q : ℚ, e.t = .val q ∧ 0 ≤ q)

/-! ## A host for the examples -/

/-- The structured value `{a: 1}`. -/
def sampleObject : Value := .obj [("a", .num (.val 1))]

/-- The fragment of `JSON.stringify` the examples need. -/
def sampleStringify : Value → String
  | .obj [("a", .num _)] => "\x7b\"a\":1\x7d"
  | .obj [("t", .num _), ("d", .str _)] => "\x7b\"t\":5,\"d\":\"hello\"\x7d"
  | .obj [("t", .num _), ("d", .null)] => "\x7b\"t\":5,\"d\":null\x7d"
  | .obj [("t", .num _), ("json", .bool true), ("d", .str "null")] =>
    "\x7b\"t\":5,\"json\":true,\"d\":\"null\"\x7d"
  | .obj [("t", .num _), ("json", .bool true), ("d", .str _)] =>
    "\x7b\"t\":5,\"json\":true,\"d\":\"\x7b\\\"a\\\":1\x7d\"\x7d"
  | _ => "null"

/-- The matching fragment of `JSON.parse`; every other text is a syntax error. -/
def sampleParse (s : String) : Option Value :=
  if s = "\x7b\"a\":1\x7d" then some sampleObject
  else if s = "\x7b\"t\":5,\"d\":\"hello\"\x7d" then
    some (.obj [("t", .num (getTimestamp 5000)), ("d", .str "hello")])
  else if s = "\x7b\"t\":5,\"json\":true,\"d\":\"\x7b\\\"a\\\":1\x7d\"\x7d" then
    some (.obj [("t", .num (getTimestamp 5000)), ("json", .bool true),
      ("d", .str "\x7b\"a\":1\x7d")])
  else if s = "\x7b\"t\":5,\"d\":null\x7d" then
    some (.obj [("t", .num (getTimestamp 5000)), ("d", .null)])
  else if s = "\x7b\"t\":5,\"json\":true,\"d\":\"null\"\x7d" then
    some (.obj [("t", .num (getTimestamp 5000)), ("json", .bool true), ("d", .str "null")])
  else if s = "null" then some .null
  else none

/-- A host with the given capabilities, the sample codec, and an object
prototype that answers to `toString` and `constructor`. -/
def sampleEnv (hasStorage hasJson : Bool) : Env :=
  ⟨hasStorage, hasJson, sampleStringify, sampleParse, fun _ => .nan, fun _ => "",
    fun name => name = "toString" ∨ name = "constructor"⟩

/-- A persistent store holding, under `abcd`, the entry `set` writes for `"hello"`. -/
def sampleStored : Store :=
  ⟨bind (fun _ => none) "abcd" "\x7b\"t\":5,\"d\":\"hello\"\x7d", fun _ => none⟩

/-- A store whose in-memory mapping holds `"hello"` under `abcd`. -/
def sampleCached : Store :=
  ⟨fun _ => none, bind (fun _ => none) "abcd" ⟨getTimestamp 5000, .str "hello"⟩⟩

/-- A persistent store holding, under `abcd`, a text no codec wrote. -/
def sampleCorrupt : Store :=
  ⟨bind (fun _ => none) "abcd" "not ours", fun _ => none⟩

/-- A persistent store holding, under `abcd`, the text `null`. -/
def sampleNull : Store :=
  ⟨bind (fun _ => none) "abcd" "null", fun _ => none⟩

/-! ## Basic facts -/

theorem checkKeyIsValid_str (k : String) (hk : 4 ≤ jsLength k) :
    checkKeyIsValid (.str k) = .ok k := by
  simp [checkKeyIsValid, Nat.not_lt.mpr hk]

theorem bind_same {α : Type} (m : String → Option α) (k : String) (a : α) :
    bind m k a k = some a := by
  simp [bind]

theorem bind_other {α : Type} (m : String → Option α) (k j : String) (a : α) (h : j ≠ k) :
    bind m k a j = m j := by
  simp [bind, h]

theorem unbind_same {α : Type} (m : String → Option α) (k : String) :
    unbind m k k = none := by
  simp [unbind]

theorem unbind_other {α : Type} (m : String → Option α) (k j : String) (h : j ≠ k) :
    unbind m k j = m j := by
  simp [unbind, h]

theorem getTimestamp_seconds (clock : Int) : getTimestamp clock = .val (seconds clock) := rfl

theorem Entry.toValue_eq (e : Entry) : e.toValue = (Item.mk e.t false e.d).toValue := rfl

/-- Lines 134-148 on an item of the shape `set` builds. -/
theorem readItem_toValue (env : Env) (clock : Int) (expiration : Number) (i : Item) :
    readItem env clock expiration i.toValue =
      if Number.lt i.t (Number.sub (getTimestamp clock) expiration) = true then
        .ok (.bool false)
      else if i.json = true ∧ env.hasJson = true then
        match env.parse (toText env i.d) with
        | some v => .ok v
        | none => .error .syntaxError
      else .ok i.d := by
  obtain ⟨t, json, d⟩ := i
  cases json <;> cases hj : env.hasJson <;>
    simp [readItem, Item.toValue, Value.prop, List.lookup, toNumber, hj]

/-! ## Key validation -/

/-- C3. `checkKeyIsValid` fails with the invalid-key-type error exactly on the
keys that are not strings, fails with the key-too-short error exactly on the
strings of length below 4, and returns a key exactly when it is handed that
key as a string of length at least 4, so a valid key comes back unchanged. -/
theorem checkKeyIsValid_spec (key : Value) :
    (checkKeyIsValid key = .error .invalidKeyType ↔ typeOf key ≠ .string) ∧
    (checkKeyIsValid key = .error .keyTooShort ↔ ∃ s, key = .str s ∧ jsLength s < 4) ∧
    (∀ s, checkKeyIsValid key = .ok s ↔ key = .str s ∧ 4 ≤ jsLength s) := by
  cases key <;> simp [checkKeyIsValid, typeOf]
  case str s =>
    by_cases h : jsLength s < 4
    · simp [h]
    · simp [h]
      omega

/-- C4. On a key that is not a string of length at least 4, each of `set`,
`get` and `remove` raises the key-validation error (the invalid-key-type or
the key-too-short one) and leaves the whole store, persistent and in-memory,
exactly as it was. -/
theorem invalid_key_raises_and_store_unchanged (env : Env) (clock : Int) (st : Store)
    (key data expiration : Value) (hkey : ∀ s, key = .str s → jsLength s < 4) :
    ∃ e, (e = Err.invalidKeyType ∨ e = Err.keyTooShort) ∧
      set env clock st key data = (.error e, st) ∧
      get env clock st key expiration = (.error e, st) ∧
      remove env st key = (.error e, st) := by
  cases key
  case str s =>
    have h := hkey s rfl
    exact ⟨.keyTooShort, Or.inr rfl, by simp [set, checkKeyIsValid, h],
      by simp [get, checkKeyIsValid, h], by simp [remove, checkKeyIsValid, h]⟩
  all_goals
    exact ⟨.invalidKeyType, Or.inl rfl, by simp [set, checkKeyIsValid],
      by simp [get, checkKeyIsValid], by simp [remove, checkKeyIsValid]⟩

/-- C4 at the key `123`, on a store that holds an entry. -/
theorem invalid_key_raises_and_store_unchanged_witness :
    ∃ e, (e = Err.invalidKeyType ∨ e = Err.keyTooShort) ∧
      set (sampleEnv true true) 5000 sampleStored (.num (.val 123)) (.str "hello")
        = (.error e, sampleStored) ∧
      get (sampleEnv true true) 5000 sampleStored (.num (.val 123)) .undefined
        = (.error e, sampleStored) ∧
      remove (sampleEnv true true) sampleStored (.num (.val 123)) = (.error e, sampleStored) :=
  invalid_key_raises_and_store_unchanged (sampleEnv true true) 5000 sampleStored
    (.num (.val 123)) (.str "hello") .undefined (fun _ h => by cases h)

/-- C5, the claim refuted: `get("", 5)` does not raise the invalid-key-type error. -/
theorem get_empty_key_not_invalidKeyType :
    (get (sampleEnv true true) 5000 Store.empty (.str "") (.num (.val 5))).1
      ≠ .error .invalidKeyType := by
  have h : (get (sampleEnv true true) 5000 Store.empty (.str "") (.num (.val 5))).1
      = .error .keyTooShort := rfl
  rw [h]
  intro hne
  cases hne

/-- C5, amended. `get("", 5)` raises the key-too-short error, the failure
`set` raises for the 3-character key `"abc"`, while `set` with the non-string
key `123` raises the invalid-key-type error; none of them touches the store. -/
theorem empty_key_is_too_short (env : Env) (clock : Int) (st : Store) (data : Value) :
    get env clock st (.str "") (.num (.val 5)) = (.error .keyTooShort, st) ∧
    set env clock st (.str "abc") data = (.error .keyTooShort, st) ∧
    set env clock st (.num (.val 123)) data = (.error .invalidKeyType, st) := by
  refine ⟨?_, ?_, ?_⟩
  · have h : checkKeyIsValid (.str "") = .error .keyTooShort := rfl
    simp [get, h]
  · have h : checkKeyIsValid (.str "abc") = .error .keyTooShort := rfl
    simp [set, h]
  · simp [set, checkKeyIsValid]

/-! ## Writing -/

/-- C6. With a valid key and a value of the function kind, `set` raises the
unsupported-value-type error in every capability configuration and leaves the
store unchanged: nothing is written under the key and an entry it held stays. -/
theorem set_function_raises (env : Env) (clock : Int) (st : Store) (k : String)
    (data : Value) (hk : 4 ≤ jsLength k) (hdata : typeOf data = .function) :
    set env clock st (.str k) data = (.error .unsupportedValueType, st) := by
  simp [set, checkKeyIsValid_str k hk, buildItem, hdata]

/-- C6 on a store that already holds an entry under the key. -/
theorem set_function_raises_witness :
    set (sampleEnv true true) 5000 sampleStored (.str "abcd") .func
      = (.error .unsupportedValueType, sampleStored) :=
  set_function_raises (sampleEnv true true) 5000 sampleStored "abcd" .func
    (by decide) rfl

/-- C7, the claim refuted: with the persistent store and no codec, `set` of
`null`, which is no structured value, returns `false` and not the facade. -/
theorem set_null_returns_false :
    (set (sampleEnv true false) 5000 Store.empty (.str "abcd") .null).1
      = .ok (.value (.bool false)) := rfl

/-- C7, amended. With a valid key, `set` returns `false` exactly when the
value is of the object kind (a structured value or `null`), the persistent
store is active and the codec is unavailable; then the store is unchanged.
In every other case in which `set` completes it returns the facade. -/
theorem set_returns_false_iff (env : Env) (clock : Int) (st : Store) (k : String)
    (data : Value) (hk : 4 ≤ jsLength k) :
    ((set env clock st (.str k) data).1 = .ok (.value (.bool false)) ↔
      typeOf data = .object ∧ env.hasStorage = true ∧ env.hasJson = false) ∧
    ((set env clock st (.str k) data).1 = .ok (.value (.bool false)) →
      (set env clock st (.str k) data).2 = st) ∧
    (∀ r, (set env clock st (.str k) data).1 = .ok r →
      ¬ (typeOf data = .object ∧ env.hasStorage = true ∧ env.hasJson = false) →
      r = .self) := by
  cases data <;> cases hs : env.hasStorage <;> cases hj : env.hasJson <;>
    simp [set, checkKeyIsValid_str k hk, buildItem, typeOf, hs, hj]

/-- C7, amended, where `set` returns `false`: a structured value, no codec. -/
theorem set_returns_false_iff_witness :
    ((set (sampleEnv true false) 5000 sampleStored (.str "abcd") sampleObject).1
        = .ok (.value (.bool false)) ↔
      typeOf sampleObject = .object ∧ (sampleEnv true false).hasStorage = true ∧
        (sampleEnv true false).hasJson = false) ∧
    ((set (sampleEnv true false) 5000 sampleStored (.str "abcd") sampleObject).1
        = .ok (.value (.bool false)) →
      (set (sampleEnv true false) 5000 sampleStored (.str "abcd") sampleObject).2
        = sampleStored) ∧
    (∀ r, (set (sampleEnv true false) 5000 sampleStored (.str "abcd") sampleObject).1 = .ok r →
      ¬ (typeOf sampleObject = .object ∧ (sampleEnv true false).hasStorage = true ∧
        (sampleEnv true false).hasJson = false) →
      r = .self) :=
  set_returns_false_iff (sampleEnv true false) 5000 sampleStored "abcd" sampleObject
    (by decide)

/-- C9, the defect: with the persistent store and no codec, `set` of a value
that is neither of the object kind nor a function reaches the
`JSON.stringify` of line 89 and raises the host's reference error; the store
is unchanged. -/
theorem set_primitive_without_codec_raises (env : Env) (clock : Int) (st : Store)
    (k : String) (data : Value) (hk : 4 ≤ jsLength k)
    (hstorage : env.hasStorage = true) (hjson : env.hasJson = false)
    (hobject : typeOf data ≠ .object) (hfunction : typeOf data ≠ .function) :
    set env clock st (.str k) data = (.error .referenceError, st) := by
  cases data <;> simp_all [set, checkKeyIsValid_str k hk, buildItem, typeOf]

/-- C9 at `set("abcd", "hello")`. -/
theorem set_primitive_without_codec_raises_witness :
    set (sampleEnv true false) 5000 Store.empty (.str "abcd") (.str "hello")
      = (.error .referenceError, Store.empty) :=
  set_primitive_without_codec_raises (sampleEnv true false) 5000 Store.empty "abcd"
    (.str "hello") (by decide) rfl rfl (by decide) (by decide)

/-! ## Reading -/

/-- C10. With the persistent store and the codec both available, a valid key
under which the store holds a text the codec cannot deserialize makes `get`
raise the corrupt-entry error whatever the expiration argument, given or
omitted; it returns neither `false` nor a value, and the store is unchanged. -/
theorem get_corrupt_raises (env : Env) (clock : Int) (st : Store) (k raw : String)
    (expiration : Value) (hk : 4 ≤ jsLength k)
    (hstorage : env.hasStorage = true) (hjson : env.hasJson = true)
    (hraw : st.storage k = some raw) (hparse : env.parse raw = none) :
    get env clock st (.str k) expiration = (.error .corruptEntry, st) := by
  simp [get, checkKeyIsValid_str k hk, hstorage, hjson, hraw, hparse]

/-- C10 on a store holding the text `not ours`, read without expiration. -/
theorem get_corrupt_raises_witness :
    get (sampleEnv true true) 5000 sampleCorrupt (.str "abcd") .undefined
      = (.error .corruptEntry, sampleCorrupt) :=
  get_corrupt_raises (sampleEnv true true) 5000 sampleCorrupt "abcd" "not ours" .undefined
    (by decide) rfl rfl rfl rfl

/-! ## Which backend an operation uses -/

/-- C8, the defect: with the persistent store available and the codec not,
`get` on a valid key never consults the persistent store.  Whatever text the
store holds under the key, `get` returns `false` once the in-memory mapping
holds nothing under it (as is always the case in this configuration, where
`set` never writes to the mapping); yet in the same configuration `remove`
deletes the key from the persistent store, `clear` empties the persistent
store, and `set` leaves the in-memory mapping alone. -/
theorem get_without_codec_ignores_storage (env : Env) (clock : Int) (st : Store)
    (k : String) (expiration : Value) (hk : 4 ≤ jsLength k)
    (hstorage : env.hasStorage = true) (hjson : env.hasJson = false)
    (htemporal : st.temporal k = none) (hin : env.inherited k = false) :
    get env clock st (.str k) expiration = (.ok (.bool false), st) ∧
    remove env st (.str k) = (.ok .self, { st with storage := unbind st.storage k }) ∧
    (remove env st (.str k)).2.storage k = none ∧
    clear env st = (.self, { st with storage := fun _ => none }) ∧
    (∀ c data, (set env c st (.str k) data).2.temporal = st.temporal) := by
  refine ⟨?_, ?_, ?_, ?_, ?_⟩
  · simp [get, checkKeyIsValid_str k hk, hstorage, hjson, readTemporal, htemporal, hin]
  · simp [remove, checkKeyIsValid_str k hk, hstorage]
  · simp [remove, checkKeyIsValid_str k hk, hstorage, unbind]
  · simp [clear, hstorage]
  · intro c data
    cases data <;> simp [set, checkKeyIsValid_str k hk, buildItem, typeOf, hstorage, hjson]

/-- C8 on a persistent store that holds an entry under `abcd`. -/
theorem get_without_codec_ignores_storage_witness :
    sampleStored.storage "abcd" = some "\x7b\"t\":5,\"d\":\"hello\"\x7d" ∧
    get (sampleEnv true false) 9000 sampleStored (.str "abcd") .undefined
      = (.ok (.bool false), sampleStored) ∧
    remove (sampleEnv true false) sampleStored (.str "abcd")
      = (.ok .self, { sampleStored with storage := unbind sampleStored.storage "abcd" }) ∧
    (remove (sampleEnv true false) sampleStored (.str "abcd")).2.storage "abcd" = none ∧
    clear (sampleEnv true false) sampleStored
      = (.self, { sampleStored with storage := fun _ => none }) ∧
    (∀ c data,
      (set (sampleEnv true false) c sampleStored (.str "abcd") data).2.temporal
        = sampleStored.temporal) :=
  ⟨rfl, get_without_codec_ignores_storage (sampleEnv true false) 9000 sampleStored "abcd"
    .undefined (by decide) rfl rfl rfl rfl⟩

/-- With both the persistent store and the codec, the same entry is read. -/
theorem get_with_codec_reads_storage :
    (get (sampleEnv true true) 9000 sampleStored (.str "abcd") .undefined).1
      = .ok (.str "hello") := rfl

/-- What each operation leaves alone.  `set`, `remove` and `clear` with
`hasStorage` leave the in-memory mapping untouched, without it the persistent
store.  The result of `get` does not depend on the in-memory mapping when both
`hasStorage` and `hasJson` hold, and does not depend on the persistent store
in every other configuration. -/
theorem backend_routing (env : Env) (clock : Int) (st st' : Store)
    (key data expiration : Value) :
    (env.hasStorage = true →
      (set env clock st key data).2.temporal = st.temporal ∧
      (remove env st key).2.temporal = st.temporal ∧
      (clear env st).2.temporal = st.temporal) ∧
    (env.hasStorage = false →
      (set env clock st key data).2.storage = st.storage ∧
      (remove env st key).2.storage = st.storage ∧
      (clear env st).2.storage = st.storage) ∧
    (env.hasStorage = true ∧ env.hasJson = true → st'.storage = st.storage →
      (get env clock st' key expiration).1 = (get env clock st key expiration).1) ∧
    (¬ (env.hasStorage = true ∧ env.hasJson = true) → st'.temporal = st.temporal →
      (get env clock st' key expiration).1 = (get env clock st key expiration).1) := by
  refine ⟨?_, ?_, ?_, ?_⟩
  · intro hs
    refine ⟨?_, ?_, ?_⟩
    · unfold set
      split
      · rfl
      · split
        · rfl
        · rfl
        · simp only [hs, if_true]
          split <;> rfl
    · unfold remove
      split
      · rfl
      · simp [hs]
    · simp [clear, hs]
  · intro hs
    refine ⟨?_, ?_, ?_⟩
    · unfold set
      split
      · rfl
      · split
        · rfl
        · rfl
        · simp [hs]
    · unfold remove
      split
      · rfl
      · simp only [hs, Bool.false_eq_true, if_false]
        split <;> rfl
    · simp [clear, hs]
  · intro h hst
    unfold get
    split
    · rfl
    · simp only [h, and_self, if_true, hst]
      split
      · rfl
      · split <;> rfl
  · intro h hst
    unfold get
    split
    · rfl
    · simp only [h, if_false, readTemporal, hst]
      split <;> rfl

/-! ## Reading back what was written -/

/-- What `get` finds under a key right after a `set` that returned the facade:
`false` if the entry is older than the expiration allows, else the value. -/
theorem get_after_set (env : Env) (c₁ c₂ : Int) (st : Store) (k : String)
    (v expiration : Value) (hk : 4 ≤ jsLength k)
    (hv : env.hasStorage = true → typeOf v = .object → env.RoundTrips v)
    (hitem : ∀ item, buildItem env c₁ v = .ok (some item) → env.hasStorage = true →
      env.RoundTrips item.toValue)
    (hset : (set env c₁ st (.str k) v).1 = .ok .self) :
    (get env c₂ (set env c₁ st (.str k) v).2 (.str k) expiration).1 =
      if Number.lt (getTimestamp c₁)
          (Number.sub (getTimestamp c₂) (Number.mul (toNumber env expiration) (.val 60))) = true
      then .ok (.bool false) else .ok v := by
  cases hs : env.hasStorage <;> cases hj : env.hasJson <;> cases v <;>
    simp [set, checkKeyIsValid_str k hk, buildItem, typeOf, hs, hj, Env.RoundTrips]
      at hset hitem hv ⊢ <;>
    simp [get, checkKeyIsValid_str k hk, hs, hj, readTemporal, bind, Entry.toValue_eq,
      readItem_toValue, hitem, toText, hv]

/-- C1. In every capability configuration and from every prior store, if
`set` with a valid key returns the facade, then `get` on that key right
after, with no expiration argument, returns the value that was set, provided
the codec's `parse` undoes its `stringify` on what `set` serialized.  The
prior store is arbitrary, so an entry the key held before is replaced whole. -/
theorem set_get_roundtrip (env : Env) (c₁ c₂ : Int) (st : Store) (k : String) (v : Value)
    (hk : 4 ≤ jsLength k)
    (hv : env.hasStorage = true → typeOf v = .object → env.RoundTrips v)
    (hitem : ∀ item, buildItem env c₁ v = .ok (some item) → env.hasStorage = true →
      env.RoundTrips item.toValue)
    (hset : (set env c₁ st (.str k) v).1 = .ok .self) :
    (get env c₂ (set env c₁ st (.str k) v).2 (.str k) .undefined).1 = .ok v := by
  rw [get_after_set env c₁ c₂ st k v .undefined hk hv hitem hset]
  simp [toNumber, Number.mul, Number.sub, Number.lt, getTimestamp]

/-- C1 for the structured value `{a: 1}`, written over an older entry. -/
theorem set_get_roundtrip_witness :
    (get (sampleEnv true true) 9000
      (set (sampleEnv true true) 5000 sampleStored (.str "abcd") sampleObject).2
      (.str "abcd") .undefined).1 = .ok sampleObject :=
  set_get_roundtrip (sampleEnv true true) 5000 9000 sampleStored "abcd" sampleObject
    (by decide) (fun _ _ => rfl)
    (fun item h _ => by
      have hb : buildItem (sampleEnv true true) 5000 sampleObject
          = .ok (some ⟨getTimestamp 5000, true, .str (sampleStringify sampleObject)⟩) := rfl
      rw [hb] at h
      cases h
      rfl)
    rfl

/-! ## Reading leaves the store alone -/

/-- `get` hands back the store it was given, whatever its outcome. -/
theorem get_store (env : Env) (clock : Int) (st : Store) (key expiration : Value) :
    (get env clock st key expiration).2 = st := by
  unfold get
  split
  · rfl
  · dsimp only
    split
    · split
      · rfl
      · split <;> rfl
    · split <;> rfl

/-- The result of `get` on a key depends on the store only through what the
persistent store and the in-memory mapping hold under that key. -/
theorem get_congr (env : Env) (clock : Int) (st st' : Store) (j : String) (expiration : Value)
    (hstorage : st'.storage j = st.storage j) (htemporal : st'.temporal j = st.temporal j) :
    (get env clock st' (.str j) expiration).1 = (get env clock st (.str j) expiration).1 := by
  unfold get
  split
  · rfl
  · rename_i k hk
    have hjk : j = k := by
      simp only [checkKeyIsValid] at hk
      split at hk
      · cases hk
      · exact Except.ok.inj hk
    subst hjk
    simp only [readTemporal, hstorage, htemporal]
    split
    · split
      · rfl
      · split <;> rfl
    · split <;> rfl

/-- What `get` returns for a key that holds a well-formed entry: `false` if
the entry is older than the expiration allows, else the payload. -/
theorem get_holdsEntry (env : Env) (clock : Int) (st : Store) (k : String) (t : ℚ)
    (payload expiration : Value) (hk : 4 ≤ jsLength k)
    (hentry : HoldsEntry env st k t payload) :
    (get env clock st (.str k) expiration).1 =
      if Number.lt (.val t)
          (Number.sub (getTimestamp clock) (Number.mul (toNumber env expiration) (.val 60))) = true
      then .ok (.bool false) else .ok payload := by
  unfold HoldsEntry at hentry
  by_cases hb : env.hasStorage = true ∧ env.hasJson = true
  · rw [if_pos hb] at hentry
    obtain ⟨raw, json, d, hraw, hparse, hd⟩ := hentry
    cases json
    · simp at hd
      subst hd
      simp [get, checkKeyIsValid_str k hk, hb, hraw, hparse, readItem_toValue]
    · simp at hd
      simp [get, checkKeyIsValid_str k hk, hb, hraw, hparse, readItem_toValue, hd]
  · rw [if_neg hb] at hentry
    simp [get, checkKeyIsValid_str k hk, hb, readTemporal, hentry, Entry.toValue_eq,
      readItem_toValue]

/-- C18. For a valid key that holds a well-formed entry, whatever its
timestamp and however late the clock, `get` without an expiration argument
returns the entry's payload and leaves the store as it is; unless the
payload is itself `false`, the result is not `false`. -/
theorem get_without_expiration_never_expires (env : Env) (clock : Int) (st : Store)
    (k : String) (t : ℚ) (payload : Value) (hk : 4 ≤ jsLength k)
    (hentry : HoldsEntry env st k t payload) :
    get env clock st (.str k) .undefined = (.ok payload, st) ∧
    (payload ≠ .bool false → (get env clock st (.str k) .undefined).1 ≠ .ok (.bool false)) := by
  have h := get_holdsEntry env clock st k t payload .undefined hk hentry
  have hnan : Number.lt (.val t)
      (Number.sub (getTimestamp clock) (Number.mul (toNumber env .undefined) (.val 60)))
        = false := by
    simp [toNumber, Number.mul, Number.sub, Number.lt, getTimestamp]
  rw [hnan] at h
  simp only [Bool.false_eq_true, if_false] at h
  refine ⟨Prod.ext h (get_store env clock st (.str k) .undefined), ?_⟩
  intro hne hfalse
  rw [h] at hfalse
  exact hne (Except.ok.inj hfalse)

/-- C18 for an entry written at second 5 and read a billion seconds later. -/
theorem get_without_expiration_never_expires_witness :
    get (sampleEnv true true) 1000000000000 sampleStored (.str "abcd") .undefined
      = (.ok (.str "hello"), sampleStored) ∧
    (Value.str "hello" ≠ .bool false →
      (get (sampleEnv true true) 1000000000000 sampleStored (.str "abcd") .undefined).1
        ≠ .ok (.bool false)) :=
  get_without_expiration_never_expires (sampleEnv true true) 1000000000000 sampleStored
    "abcd" (seconds 5000) (.str "hello") (by decide)
    (by
      unfold HoldsEntry
      rw [if_pos ⟨rfl, rfl⟩]
      exact ⟨_, false, .str "hello", rfl, rfl, rfl⟩)

/-- C19. `get` leaves the persistent store and the in-memory mapping exactly
as they were, for every host, store, key and expiration argument and whatever
its outcome.  In particular an entry judged expired is not deleted: when a
well-formed entry is older than `m` minutes, `get` with expiration `m` returns
`false`, and a `get` without expiration on the store left behind still
returns the payload. -/
theorem get_is_read_only (env : Env) (clock clock' : Int) (st : Store)
    (key expiration : Value) :
    (get env clock st key expiration).2 = st ∧
    (∀ (k : String) (t m : ℚ) (payload : Value), 4 ≤ jsLength k →
      HoldsEntry env st k t payload → t < seconds clock - 60 * m →
      (get env clock st (.str k) (.num (.val m))).1 = .ok (.bool false) ∧
      (get env clock' (get env clock st (.str k) (.num (.val m))).2 (.str k) .undefined).1
        = .ok payload) := by
  refine ⟨get_store env clock st key expiration, ?_⟩
  intro k t m payload hk hentry hexpired
  constructor
  · rw [get_holdsEntry env clock st k t payload _ hk hentry]
    have hlt : Number.lt (.val t)
        (Number.sub (getTimestamp clock) (Number.mul (toNumber env (.num (.val m))) (.val 60)))
          = true := by
      simp only [toNumber, Number.mul, Number.sub, Number.lt, getTimestamp, decide_eq_true_eq]
      simp only [seconds] at hexpired
      linarith
    rw [if_pos hlt]
  · rw [get_store, get_holdsEntry env clock' st k t payload _ hk hentry]
    simp [toNumber, Number.mul, Number.sub, Number.lt, getTimestamp]

/-! ## One key at a time -/

/-- `set` leaves every other key of both backends as it was. -/
theorem set_other (env : Env) (clock : Int) (st : Store) (k j : String) (data : Value)
    (hjk : j ≠ k) :
    (set env clock st (.str k) data).2.storage j = st.storage j ∧
    (set env clock st (.str k) data).2.temporal j = st.temporal j := by
  unfold set
  split
  · exact ⟨rfl, rfl⟩
  · rename_i k' hk'
    have hkk : k = k' := by
      simp only [checkKeyIsValid] at hk'
      split at hk'
      · cases hk'
      · exact Except.ok.inj hk'
    subst hkk
    split
    · exact ⟨rfl, rfl⟩
    · exact ⟨rfl, rfl⟩
    · split
      · split
        · exact ⟨bind_other _ _ _ _ hjk, rfl⟩
        · exact ⟨rfl, rfl⟩
      · exact ⟨rfl, bind_other _ _ _ _ hjk⟩

/-- `remove` leaves every other key of both backends as it was. -/
theorem remove_other (env : Env) (st : Store) (k j : String) (hjk : j ≠ k) :
    (remove env st (.str k)).2.storage j = st.storage j ∧
    (remove env st (.str k)).2.temporal j = st.temporal j := by
  unfold remove
  split
  · exact ⟨rfl, rfl⟩
  · rename_i k' hk'
    have hkk : k = k' := by
      simp only [checkKeyIsValid] at hk'
      split at hk'
      · cases hk'
      · exact Except.ok.inj hk'
    subst hkk
    split
    · exact ⟨unbind_other _ _ _ hjk, rfl⟩
    · split
      · exact ⟨rfl, unbind_other _ _ _ hjk⟩
      · exact ⟨rfl, rfl⟩

/-- C20. For two distinct keys `k` and `j`, neither `set` on `k` (whether it
stores, returns `false` or raises) nor `remove` on `k` changes what either
backend holds under `j`, and `get` on `j` at the same clock reading returns
the same result before and after the call. -/
theorem set_remove_touch_one_key (env : Env) (clock clock' : Int) (st : Store)
    (k j : String) (data expiration : Value) (hjk : j ≠ k) :
    (set env clock st (.str k) data).2.storage j = st.storage j ∧
    (set env clock st (.str k) data).2.temporal j = st.temporal j ∧
    (get env clock' (set env clock st (.str k) data).2 (.str j) expiration).1
      = (get env clock' st (.str j) expiration).1 ∧
    (remove env st (.str k)).2.storage j = st.storage j ∧
    (remove env st (.str k)).2.temporal j = st.temporal j ∧
    (get env clock' (remove env st (.str k)).2 (.str j) expiration).1
      = (get env clock' st (.str j) expiration).1 := by
  obtain ⟨hs1, hs2⟩ := set_other env clock st k j data hjk
  obtain ⟨hr1, hr2⟩ := remove_other env st k j hjk
  exact ⟨hs1, hs2, get_congr env clock' st _ j expiration hs1 hs2,
    hr1, hr2, get_congr env clock' st _ j expiration hr1 hr2⟩

/-- C20 on a store that holds an entry under `abcd`, with the other key `wxyz`. -/
theorem set_remove_touch_one_key_witness :
    (set (sampleEnv true true) 7000 sampleStored (.str "wxyz") sampleObject).2.storage "abcd"
      = sampleStored.storage "abcd" ∧
    (set (sampleEnv true true) 7000 sampleStored (.str "wxyz") sampleObject).2.temporal "abcd"
      = sampleStored.temporal "abcd" ∧
    (get (sampleEnv true true) 9000
      (set (sampleEnv true true) 7000 sampleStored (.str "wxyz") sampleObject).2
      (.str "abcd") .undefined).1
      = (get (sampleEnv true true) 9000 sampleStored (.str "abcd") .undefined).1 ∧
    (remove (sampleEnv true true) sampleStored (.str "wxyz")).2.storage "abcd"
      = sampleStored.storage "abcd" ∧
    (remove (sampleEnv true true) sampleStored (.str "wxyz")).2.temporal "abcd"
      = sampleStored.temporal "abcd" ∧
    (get (sampleEnv true true) 9000 (remove (sampleEnv true true) sampleStored (.str "wxyz")).2
      (.str "abcd") .undefined).1
      = (get (sampleEnv true true) 9000 sampleStored (.str "abcd") .undefined).1 :=
  set_remove_touch_one_key (sampleEnv true true) 7000 9000 sampleStored "wxyz" "abcd"
    sampleObject .undefined (by decide)

/-! ## The in-memory backend -/

/-- C16. Without the persistent store, with the codec or without it, `set`
with a valid key and any value that is not a function returns the facade; the
item it builds carries no encoding flag and the value itself, which is what
the in-memory mapping then holds under the key; and the `get` that follows
returns the value.  No assumption on the codec is needed. -/
theorem fallback_set_get (env : Env) (c₁ c₂ : Int) (st : Store) (k : String) (v : Value)
    (hk : 4 ≤ jsLength k) (hstorage : env.hasStorage = false)
    (hv : typeOf v ≠ .function) :
    buildItem env c₁ v = .ok (some ⟨getTimestamp c₁, false, v⟩) ∧
    set env c₁ st (.str k) v
      = (.ok .self, { st with temporal := bind st.temporal k ⟨getTimestamp c₁, v⟩ }) ∧
    (get env c₂ (set env c₁ st (.str k) v).2 (.str k) .undefined).1 = .ok v := by
  have hb : buildItem env c₁ v = .ok (some ⟨getTimestamp c₁, false, v⟩) := by
    simp [buildItem, hstorage, hv]
  have hset : set env c₁ st (.str k) v
      = (.ok .self, { st with temporal := bind st.temporal k ⟨getTimestamp c₁, v⟩ }) := by
    simp [set, checkKeyIsValid_str k hk, hb, hstorage]
  refine ⟨hb, hset, ?_⟩
  rw [hset]
  simp [get, checkKeyIsValid_str k hk, hstorage, readTemporal, bind, Entry.toValue_eq,
    readItem_toValue, toNumber, Number.mul, Number.sub, Number.lt, getTimestamp]

/-- C16 for the structured value `{a: 1}`, on a host without codec. -/
theorem fallback_set_get_witness :
    buildItem (sampleEnv false false) 5000 sampleObject
      = .ok (some ⟨getTimestamp 5000, false, sampleObject⟩) ∧
    set (sampleEnv false false) 5000 Store.empty (.str "abcd") sampleObject
      = (.ok .self, { Store.empty with
          temporal := bind Store.empty.temporal "abcd" ⟨getTimestamp 5000, sampleObject⟩ }) ∧
    (get (sampleEnv false false) 9000
      (set (sampleEnv false false) 5000 Store.empty (.str "abcd") sampleObject).2
      (.str "abcd") .undefined).1 = .ok sampleObject :=
  fallback_set_get (sampleEnv false false) 5000 9000 Store.empty "abcd" sampleObject
    (by decide) rfl (by decide)

/-! ## Entries without a timestamp -/

/-- With the persistent store and the codec, a stored text that decodes to a
value other than `null` carrying no property `t` makes `get` raise the
missing-timestamp error, before the expiration is looked at. -/
theorem get_missing_timestamp (env : Env) (clock : Int) (st : Store) (k raw : String)
    (item expiration : Value) (hk : 4 ≤ jsLength k)
    (hstorage : env.hasStorage = true) (hjson : env.hasJson = true)
    (hraw : st.storage k = some raw) (hparse : env.parse raw = some item)
    (ht : item.prop "t" = .ok .undefined) :
    get env clock st (.str k) expiration = (.error .missingTimestamp, st) := by
  simp [get, checkKeyIsValid_str k hk, hstorage, hjson, hraw, hparse, readItem, ht]

/-- C11, the defect: with the persistent store and the codec, a stored text
that decodes to `null` (which carries no timestamp) makes `get` raise the
host's type error, raised by reading the property `t` of `null`, and not the
missing-timestamp error; the store is unchanged. -/
theorem get_null_entry_raises_typeError (env : Env) (clock : Int) (st : Store)
    (k raw : String) (expiration : Value) (hk : 4 ≤ jsLength k)
    (hstorage : env.hasStorage = true) (hjson : env.hasJson = true)
    (hraw : st.storage k = some raw) (hparse : env.parse raw = some .null) :
    get env clock st (.str k) expiration = (.error .typeError, st) := by
  simp [get, checkKeyIsValid_str k hk, hstorage, hjson, hraw, hparse, readItem, Value.prop]

/-- C11 at the stored text `null`. -/
theorem get_null_entry_raises_typeError_witness :
    get (sampleEnv true true) 5000 sampleNull (.str "abcd") .undefined
      = (.error .typeError, sampleNull) :=
  get_null_entry_raises_typeError (sampleEnv true true) 5000 sampleNull "abcd" "null"
    .undefined (by decide) rfl rfl rfl rfl

/-! ## The stored form -/

/-- C14, the claim refuted: with the persistent store and the codec, the item
`set` builds for `null` has its encoding flag set and the serialization of
`null` as payload. -/
theorem buildItem_null_is_encoded :
    buildItem (sampleEnv true true) 5000 .null
      = .ok (some ⟨getTimestamp 5000, true, .str "null"⟩) := rfl

/-- C14, amended. With the persistent store and the codec, for a valid key
and a string, a number or a boolean, the item `set` builds has its encoding
flag unset and the raw value as payload, and it is the serialization of that
item that `set` stores under the key. -/
theorem primitive_stored_unencoded (env : Env) (clock : Int) (st : Store) (k : String)
    (v : Value) (hk : 4 ≤ jsLength k)
    (hstorage : env.hasStorage = true) (hjson : env.hasJson = true)
    (hv : typeOf v = .string ∨ typeOf v = .number ∨ typeOf v = .boolean) :
    buildItem env clock v = .ok (some ⟨getTimestamp clock, false, v⟩) ∧
    set env clock st (.str k) v = (.ok .self, { st with
      storage := bind st.storage k
        (env.stringify (Item.toValue ⟨getTimestamp clock, false, v⟩)) }) := by
  have hb : buildItem env clock v = .ok (some ⟨getTimestamp clock, false, v⟩) := by
    rcases hv with h | h | h <;> simp [buildItem, h]
  exact ⟨hb, by simp [set, checkKeyIsValid_str k hk, hb, hstorage, hjson]⟩

/-- C14, amended, for the string `"hello"`. -/
theorem primitive_stored_unencoded_witness :
    buildItem (sampleEnv true true) 5000 (.str "hello")
      = .ok (some ⟨getTimestamp 5000, false, .str "hello"⟩) ∧
    set (sampleEnv true true) 5000 Store.empty (.str "abcd") (.str "hello")
      = (.ok .self, { Store.empty with
          storage := bind Store.empty.storage "abcd"
            ((sampleEnv true true).stringify
              (Item.toValue ⟨getTimestamp 5000, false, .str "hello"⟩)) }) :=
  primitive_stored_unencoded (sampleEnv true true) 5000 Store.empty "abcd" (.str "hello")
    (by decide) rfl rfl (Or.inl rfl)

/-- C15, the claim refuted: with the persistent store and the codec, what
`set` stores for `null` is not the serialization of `{t, d: null}` but that of
`{t, json: true, d: "null"}`. -/
theorem set_null_wire_format :
    (set (sampleEnv true true) 5000 Store.empty (.str "abcd") .null).2.storage "abcd"
      = some (sampleStringify
          (.obj [("t", .num (getTimestamp 5000)), ("json", .bool true), ("d", .str "null")])) ∧
    (set (sampleEnv true true) 5000 Store.empty (.str "abcd") .null).2.storage "abcd"
      ≠ some (sampleStringify (.obj [("t", .num (getTimestamp 5000)), ("d", .null)])) := by
  refine ⟨rfl, ?_⟩
  have h : (set (sampleEnv true true) 5000 Store.empty (.str "abcd") .null).2.storage "abcd"
      = some "\x7b\"t\":5,\"json\":true,\"d\":\"null\"\x7d" := rfl
  have h2 : sampleStringify (.obj [("t", .num (getTimestamp 5000)), ("d", .null)])
      = "\x7b\"t\":5,\"d\":null\x7d" := rfl
  rw [h, h2]
  decide

/-- C15, amended. With the persistent store and the codec, for a valid key
and a value that is not a function, the text `set` stores under the key is
the serialization of the object with the properties `t`, the clock reading in
seconds, and `d`, and between them `json: true` exactly when the value is of
the object kind (a structured value or `null`); under `json` the payload `d`
is the serialization of the value, otherwise the value itself. -/
theorem wire_format (env : Env) (clock : Int) (st : Store) (k : String) (v : Value)
    (hk : 4 ≤ jsLength k) (hstorage : env.hasStorage = true) (hjson : env.hasJson = true)
    (hv : typeOf v ≠ .function) :
    (set env clock st (.str k) v).2.storage k =
      some (env.stringify (.obj (("t", .num (.val (seconds clock))) ::
        if typeOf v = .object then [("json", .bool true), ("d", .str (env.stringify v))]
        else [("d", v)]))) := by
  cases v <;>
    simp_all [set, checkKeyIsValid_str k hk, buildItem, typeOf, bind, Item.toValue,
      getTimestamp_seconds]

/-- C15, amended, for the structured value `{a: 1}`. -/
theorem wire_format_witness :
    (set (sampleEnv true true) 5000 Store.empty (.str "abcd") sampleObject).2.storage "abcd" =
      some ((sampleEnv true true).stringify (.obj (("t", .num (.val (seconds 5000))) ::
        if typeOf sampleObject = .object then
          [("json", .bool true), ("d", .str ((sampleEnv true true).stringify sampleObject))]
        else [("d", sampleObject)]))) :=
  wire_format (sampleEnv true true) 5000 Store.empty "abcd" sampleObject
    (by decide) rfl rfl (by decide)

/-! ## Removing and clearing -/

/-- With a valid key `remove` returns the facade. -/
theorem remove_returns_self (env : Env) (st : Store) (k : String) (hk : 4 ≤ jsLength k) :
    (remove env st (.str k)).1 = .ok .self := by
  simp only [remove, checkKeyIsValid_str k hk]
  split
  · rfl
  · split <;> rfl

/-- On a key under which the active backend holds nothing, `remove` returns
the facade and leaves the store as it was. -/
theorem remove_absent (env : Env) (st : Store) (k : String) (hk : 4 ≤ jsLength k)
    (hstorage : env.hasStorage = true → st.storage k = none)
    (htemporal : env.hasStorage = false → st.temporal k = none) :
    remove env st (.str k) = (.ok .self, st) := by
  obtain ⟨storage, temporal⟩ := st
  cases hs : env.hasStorage
  · have hnone : temporal k = none := htemporal hs
    have hun : unbind temporal k = temporal := by
      funext j
      by_cases hj : j = k
      · subst hj
        simp [unbind, hnone]
      · simp [unbind, hj]
    simp only [remove, checkKeyIsValid_str k hk, hs, Bool.false_eq_true, if_false]
    split
    · rw [hun]
    · rfl
  · have hnone : storage k = none := hstorage hs
    have hun : unbind storage k = storage := by
      funext j
      by_cases hj : j = k
      · subst hj
        simp [unbind, hnone]
      · simp [unbind, hj]
    simp [remove, checkKeyIsValid_str k hk, hs, hun]

/-- After `remove`, `get` on the key returns `false`, on the persistent
backend with the codec, and on the in-memory backend for a key that is not a
property name inherited from the object prototype. -/
theorem get_after_remove (env : Env) (clock : Int) (st : Store) (k : String)
    (expiration : Value) (hk : 4 ≤ jsLength k)
    (h : (env.hasStorage = true ∧ env.hasJson = true) ∨
      (env.hasStorage = false ∧ env.inherited k = false)) :
    (get env clock (remove env st (.str k)).2 (.str k) expiration).1 = .ok (.bool false) := by
  rcases h with ⟨hs, hj⟩ | ⟨hs, hin⟩
  · simp [get, remove, checkKeyIsValid_str k hk, hs, hj, unbind]
  · simp only [remove, checkKeyIsValid_str k hk, hs, Bool.false_eq_true, if_false]
    split
    · simp [get, checkKeyIsValid_str k hk, hs, readTemporal, unbind, hin]
    · rename_i hnone
      have hk2 : st.temporal k = none := by
        cases hst : st.temporal k
        · rfl
        · simp [readTemporal, hst] at hnone
      simp [get, checkKeyIsValid_str k hk, hs, readTemporal, hk2, hin]

/-- C12, the defect: on the in-memory backend, for a valid key that is a
property name every object inherits from the object prototype (such as
`toString`), `get` after `remove` raises the missing-timestamp error and does
not return `false`: `temporal[key]` then reads the inherited function. -/
theorem get_after_remove_inherited_raises (env : Env) (clock : Int) (st : Store)
    (k : String) (expiration : Value) (hk : 4 ≤ jsLength k)
    (hstorage : env.hasStorage = false) (hin : env.inherited k = true) :
    (get env clock (remove env st (.str k)).2 (.str k) expiration).1
      = .error .missingTimestamp := by
  have hsome : (readTemporal env st k).isSome = true := by
    cases hst : st.temporal k <;> simp [readTemporal, hst, hin]
  have hremove : (remove env st (.str k)).2 = { st with temporal := unbind st.temporal k } := by
    simp [remove, checkKeyIsValid_str k hk, hstorage, hsome]
  rw [hremove]
  simp [get, checkKeyIsValid_str k hk, hstorage, readTemporal, unbind, hin, readItem,
    Value.prop]

/-- C12 at the key `toString`, on a host without persistent store. -/
theorem get_after_remove_inherited_raises_witness :
    (get (sampleEnv false true) 5000
      (remove (sampleEnv false true) Store.empty (.str "toString")).2
      (.str "toString") .undefined).1 = .error .missingTimestamp :=
  get_after_remove_inherited_raises (sampleEnv false true) 5000 Store.empty "toString"
    .undefined (by decide) rfl rfl

/-- After `clear`, `get` on a valid key returns `false`, on the persistent
backend with the codec, and on the in-memory backend for a key that is not a
property name inherited from the object prototype. -/
theorem get_after_clear (env : Env) (clock : Int) (st : Store) (k : String)
    (expiration : Value) (hk : 4 ≤ jsLength k)
    (h : (env.hasStorage = true ∧ env.hasJson = true) ∨
      (env.hasStorage = false ∧ env.inherited k = false)) :
    (get env clock (clear env st).2 (.str k) expiration).1 = .ok (.bool false) := by
  rcases h with ⟨hs, hj⟩ | ⟨hs, hin⟩
  · simp [get, clear, checkKeyIsValid_str k hk, hs, hj]
  · simp [get, clear, checkKeyIsValid_str k hk, hs, readTemporal, hin]

/-- A second `clear` returns the facade and changes nothing. -/
theorem clear_idempotent (env : Env) (st : Store) :
    (clear env st).1 = .self ∧
    clear env (clear env st).2 = (.self, (clear env st).2) := by
  cases hs : env.hasStorage <;> simp [clear, hs]

/-- C13, the defect: on the in-memory backend, for a valid key that is a
property name every object inherits from the object prototype (such as
`constructor`), `get` after `clear` raises the missing-timestamp error and
does not return `false`: the fresh `temporal` reads the inherited function. -/
theorem get_after_clear_inherited_raises (env : Env) (clock : Int) (st : Store)
    (k : String) (expiration : Value) (hk : 4 ≤ jsLength k)
    (hstorage : env.hasStorage = false) (hin : env.inherited k = true) :
    (get env clock (clear env st).2 (.str k) expiration).1 = .error .missingTimestamp := by
  simp [get, clear, checkKeyIsValid_str k hk, hstorage, readTemporal, hin, readItem,
    Value.prop]

/-- C13 at the key `constructor`, clearing a mapping that held an entry. -/
theorem get_after_clear_inherited_raises_witness :
    (get (sampleEnv false true) 9000 (clear (sampleEnv false true) sampleCached).2
      (.str "constructor") .undefined).1 = .error .missingTimestamp :=
  get_after_clear_inherited_raises (sampleEnv false true) 9000 sampleCached "constructor"
    .undefined (by decide) rfl rfl

/-! ## The entries of a reachable store -/

/-- The item `set` builds carries the clock reading as its timestamp. -/
theorem buildItem_t (env : Env) (clock : Int) (data : Value) (item : Item)
    (h : buildItem env clock data = .ok (some item)) : item.t = .val (seconds clock) := by
  unfold buildItem at h
  dsimp only at h
  split at h
  · split at h
    · cases h
    · cases h
      rfl
  · split at h
    · cases h
    · cases h
      rfl

/-- A clock that is not negative reads a number of seconds that is not negative. -/
theorem seconds_nonneg (clock : Int) (h : 0 ≤ clock) : 0 ≤ seconds clock := by
  unfold seconds
  have h2 : (0 : ℚ) ≤ (clock : ℚ) := by exact_mod_cast h
  positivity

/-- `set` keeps the entries well formed, when the clock is not negative and
the codec restores the item it serializes. -/
theorem set_wellFormed (env : Env) (clock : Int) (st : Store) (key data : Value)
    (hclock : 0 ≤ clock)
    (hcodec : ∀ item, buildItem env clock data = .ok (some item) → env.RoundTrips item.toValue)
    (hwf : WellFormed env st) : WellFormed env (set env clock st key data).2 := by
  unfold set
  split
  · exact hwf
  · rename_i k hk
    split
    · exact hwf
    · exact hwf
    · rename_i item hitem
      have ht := buildItem_t env clock data item hitem
      split
      · split
        · refine ⟨?_, hwf.2⟩
          intro j raw hj
          by_cases hjk : j = k
          · subst hjk
            simp only [bind, if_true] at hj
            cases hj
            exact ⟨item, hcodec item hitem, seconds clock, ht, seconds_nonneg clock hclock⟩
          · simp only [bind, if_neg hjk] at hj
            exact hwf.1 j raw hj
        · exact hwf
      · refine ⟨hwf.1, ?_⟩
        intro j e hj
        by_cases hjk : j = k
        · subst hjk
          simp only [bind, if_true] at hj
          cases hj
          exact ⟨seconds clock, ht, seconds_nonneg clock hclock⟩
        · simp only [bind, if_neg hjk] at hj
          exact hwf.2 j e hj

/-- `remove` keeps the entries well formed. -/
theorem remove_wellFormed (env : Env) (st : Store) (key : Value) (hwf : WellFormed env st) :
    WellFormed env (remove env st key).2 := by
  unfold remove
  split
  · exact hwf
  · rename_i k hk
    split
    · refine ⟨?_, hwf.2⟩
      intro j raw hj
      by_cases hjk : j = k
      · simp [unbind, hjk] at hj
      · simp only [unbind, if_neg hjk] at hj
        exact hwf.1 j raw hj
    · split
      · refine ⟨hwf.1, ?_⟩
        intro j e hj
        by_cases hjk : j = k
        · simp [unbind, hjk] at hj
        · simp only [unbind, if_neg hjk] at hj
          exact hwf.2 j e hj
      · exact hwf

/-- `clear` keeps the entries well formed. -/
theorem clear_wellFormed (env : Env) (st : Store) (hwf : WellFormed env st) :
    WellFormed env (clear env st).2 := by
  unfold clear
  split
  · exact ⟨fun _ _ h => (nomatch h), hwf.2⟩
  · exact ⟨hwf.1, fun _ _ h => (nomatch h)⟩

/-- Every store reached from a well-formed one by calls of the four
operations is well formed, when no call reads a negative clock and the codec
restores every item a `set` of the sequence serializes. -/
theorem run_wellFormed (env : Env) (calls : List Call) (st : Store)
    (hcalls : ∀ call ∈ calls, 0 ≤ call.clock ∧
      ∀ clock key data item, call = .set clock key data →
        buildItem env clock data = .ok (some item) → env.RoundTrips item.toValue)
    (hwf : WellFormed env st) : WellFormed env (run env st calls) := by
  induction calls generalizing st with
  | nil => exact hwf
  | cons call rest ih =>
    have hrest : ∀ c ∈ rest, 0 ≤ c.clock ∧
        ∀ clock key data item, c = .set clock key data →
          buildItem env clock data = .ok (some item) → env.RoundTrips item.toValue :=
      fun c hc => hcalls c (List.mem_cons_of_mem _ hc)
    have hcall := hcalls call (List.mem_cons_self _ _)
    show WellFormed env (run env (step env st call) rest)
    apply ih _ hrest
    cases call with
    | set clock key data =>
      exact set_wellFormed env clock st key data hcall.1
        (fun item hitem => hcall.2 clock key data item rfl hitem) hwf
    | get clock key expiration =>
      show WellFormed env (get env clock st key expiration).2
      rw [get_store]
      exact hwf
    | remove key => exact remove_wellFormed env st key hwf
    | clear => exact clear_wellFormed env st hwf

/-- The empty store is well formed. -/
theorem empty_wellFormed (env : Env) : WellFormed env Store.empty :=
  ⟨fun _ _ h => (nomatch h), fun _ _ h => (nomatch h)⟩

/-- Lines 134-148 on an item of the shape `set` builds raise neither the
corrupt-entry nor the missing-timestamp error. -/
theorem readItem_toValue_raises (env : Env) (clock : Int) (expiration : Number) (i : Item) :
    readItem env clock expiration i.toValue ≠ .error .corruptEntry ∧
    readItem env clock expiration i.toValue ≠ .error .missingTimestamp := by
  rw [readItem_toValue]
  split
  · exact ⟨fun h => (nomatch h), fun h => (nomatch h)⟩
  · split
    · split
      · exact ⟨fun h => (nomatch h), fun h => (nomatch h)⟩
      · exact ⟨fun h => (nomatch h), fun h => (nomatch h)⟩
    · exact ⟨fun h => (nomatch h), fun h => (nomatch h)⟩

/-- On a well-formed store `get` with a valid key never raises the
corrupt-entry error, and raises the missing-timestamp error only when it
reads the in-memory mapping, the mapping holds nothing under the key, and the
key is a property name inherited from the object prototype. -/
theorem get_wellFormed (env : Env) (clock : Int) (st : Store) (k : String)
    (expiration : Value) (hk : 4 ≤ jsLength k) (hwf : WellFormed env st) :
    (get env clock st (.str k) expiration).1 ≠ .error .corruptEntry ∧
    ((get env clock st (.str k) expiration).1 = .error .missingTimestamp →
      ¬ (env.hasStorage = true ∧ env.hasJson = true) ∧ st.temporal k = none ∧
        env.inherited k = true) := by
  by_cases hb : env.hasStorage = true ∧ env.hasJson = true
  · cases hraw : st.storage k with
    | none =>
      simp [get, checkKeyIsValid_str k hk, hb, hraw]
    | some raw =>
      obtain ⟨item, hparse, _⟩ := hwf.1 k raw hraw
      have hr := readItem_toValue_raises env clock
        (Number.mul (toNumber env expiration) (.val 60)) item
      simp only [get, checkKeyIsValid_str k hk, hb, and_self, if_true, hraw, hparse]
      exact ⟨hr.1, fun h => absurd h hr.2⟩
  · cases ht : st.temporal k with
    | none =>
      cases hin : env.inherited k <;>
        simp [get, checkKeyIsValid_str k hk, hb, readTemporal, ht, hin, readItem, Value.prop]
    | some e =>
      have hr := readItem_toValue_raises env clock
        (Number.mul (toNumber env expiration) (.val 60)) ⟨e.t, false, e.d⟩
      simp only [get, checkKeyIsValid_str k hk, hb, if_false, readTemporal, ht,
        Entry.toValue_eq]
      exact ⟨hr.1, fun h => absurd h hr.2⟩

/-- C17, the defect: on the in-memory backend, after a `set` and a `remove`
from the empty store, `get` with the valid key `toString` raises the
missing-timestamp error: the mapping holds no entry under that key, and
`temporal[key]` reads the function every object inherits from the object
prototype. -/
theorem get_inherited_on_reachable_store_raises :
    (get (sampleEnv false true) 9000
      (run (sampleEnv false true) Store.empty
        [.set 5000 (.str "abcd") (.str "hello"), .remove (.str "wxyz")])
      (.str "toString") .undefined).1 = .error .missingTimestamp := rfl

end WebStorage
